import Mathlib

/-!
Shallow embedding of the ssh-mob agent (src/ssh.go, src/main.go) and proofs
about its connection/retry/command-loop behaviour.

Modelling conventions:
* Durations are `Int` nanoseconds (Go `time.Duration` is an `int64` nanosecond
  count); 64-bit wrap-around is made explicit with `wrap64` where the Go
  arithmetic can overflow.
* Wall-clock times are `Int` nanoseconds.
* The SSH library and the context are oracles: a `dial` function gives the
  result of each dial attempt, and boolean functions give, for each
  observation point of the code (a `select` on `ctx.Done()`), whether the
  cancellation token has fired there.
* Fallible Go calls are `Except String`; a Go `nil` error is `Option.none` /
  `Except.ok`; run-time panics (out-of-range index, division by zero) are
  explicit constructors.
-/

namespace SshMob

/-- One second in nanoseconds (`time.Second`). -/
def SECOND : Int := 1000000000

/-- Reinterpret an integer as a two's-complement signed 64-bit value, as Go's
`int64` (`time.Duration`) arithmetic does on overflow. -/
def wrap64 (x : Int) : Int :=
  (x + 9223372036854775808) % 18446744073709551616 - 9223372036854775808

/-- The `Agent` struct of `ssh.go`.  `Connection` is an opaque handle
(`*ssh.Client` is dialled out by the oracle, `none` = `nil`). -/
structure Agent where
  Host : String := ""
  Port : Int := 22
  Username : String := ""
  Password : String := ""
  PrivateKeyPath : String := ""
  UseTTY : Bool := false
  Connection : Option Nat := none
  ConnectionDelay : Int := 0
  ConnectionTTL : Int := 60
  ConnectionStart : Int := 0
  CommandRate : Int := 6
  CommandScript : List String := []
  MaxRetries : Int := 0
deriving DecidableEq, Repr

/-- `getBackoffDuration` from `ssh.go` (the receiver is unused there):
`time.Duration(1<<attempt) * time.Second`, clamped at 16 seconds.  Both the
shift and the multiplication are wrapping `int64` operations. -/
def getBackoffDuration (attempt : Nat) : Int :=
  let backoff := wrap64 (wrap64 (2 ^ attempt) * SECOND)
  if backoff > 16 * SECOND then 16 * SECOND else backoff

/-- `getCommand` from `ssh.go`.  `none` marks the one place the Go code can
panic: indexing `a.CommandScript[idx]` with a negative `idx` (the only bounds
check in the source is `idx >= len(a.CommandScript)`). -/
def Agent.getCommand (a : Agent) (idx : Int) : Option String :=
  if 0 < a.CommandScript.length then
    if hge : (a.CommandScript.length : Int) ≤ idx then some ""
    else if h : 0 ≤ idx then
      some (a.CommandScript.get ⟨idx.toNat, by omega⟩)
    else none
  else some "echo \x27Hello, world!\x27"

/-- `getSleepDuration` from `ssh.go`: `time.Duration(60/a.CommandRate) *
time.Second`.  Go integer division truncates toward zero; with the dividend
fixed at 60 this agrees with Lean's `Int` division for every non-zero rate.
`none` marks the division-by-zero panic at `CommandRate = 0`. -/
def Agent.getSleepDuration (a : Agent) : Option Int :=
  if a.CommandRate = 0 then none
  else some (60 / a.CommandRate * SECOND)

/-- `Close` from `ssh.go`: release the handle and clear the stored
reference; a `nil` connection is left untouched. -/
def Agent.Close (a : Agent) : Agent :=
  if a.Connection.isSome then { a with Connection := none } else a

/-! ### Connect (`ssh.go` lines 29-87)

`Connect` is driven by three oracles: `dial i` is the result of the `i`-th
`ssh.Dial` call, `ctx j` says whether the cancellation token has fired at the
`j`-th observation point of the run (the points are numbered in program
order: the pre-connect delay wait if any, then alternately the pre-attempt
check and the backoff wait of each loop iteration), and `dialTime i` is
`time.Now()` when attempt `i` returns.  Besides the updated agent and the
returned error, the model yields the run's trace of externally visible
events. -/

/-- Events of a `Connect` run, with durations in nanoseconds. -/
inductive CEvent where
  | delayWait (d : Int)
  | dialAttempt (i : Nat)
  | backoffWait (i : Nat) (d : Int)
deriving DecidableEq, Repr

/-- The `error` value `Connect` returns when it is not `nil`. -/
inductive ConnErr where
  | cancelled
  | dialErr (e : String)
deriving DecidableEq, Repr

/-- The retry loop of `Connect` (`for attempt := 0; attempt < maxAttempts;
attempt++`).  `remaining` is `maxAttempts - attempt`, `obs` the index of the
next cancellation observation point. -/
def connectLoop (dial : Nat → Except String Nat) (ctx : Nat → Bool)
    (dialTime : Nat → Int) (a : Agent) (lastErr : Option String)
    (attempt obs : Nat) : (remaining : Nat) → Agent × Option ConnErr × List CEvent
  | 0 => (a, lastErr.map ConnErr.dialErr, [])
  | r + 1 =>
    if ctx obs then (a, some ConnErr.cancelled, [])
    else
      match dial attempt with
      | Except.ok c =>
        ({ a with ConnectionStart := dialTime attempt, Connection := some c },
          none, [CEvent.dialAttempt attempt])
      | Except.error e =>
        if 0 < r then
          if ctx (obs + 1) then
            (a, some ConnErr.cancelled,
              [CEvent.dialAttempt attempt,
               CEvent.backoffWait attempt (getBackoffDuration attempt)])
          else
            let rest := connectLoop dial ctx dialTime a (some e) (attempt + 1) (obs + 2) r
            (rest.1, rest.2.1,
              CEvent.dialAttempt attempt ::
                CEvent.backoffWait attempt (getBackoffDuration attempt) :: rest.2.2)
        else (a, some (ConnErr.dialErr e), [CEvent.dialAttempt attempt])

/-- `Connect` from `ssh.go`: no-op when a connection is held, context-aware
pre-connect delay, then up to `MaxRetries + 1` dial attempts with capped
exponential backoff. -/
def Agent.Connect (a : Agent) (dial : Nat → Except String Nat) (ctx : Nat → Bool)
    (dialTime : Nat → Int) : Agent × Option ConnErr × List CEvent :=
  if a.Connection.isSome then (a, none, [])
  else if 0 < a.ConnectionDelay then
    if ctx 0 then (a, some ConnErr.cancelled, [CEvent.delayWait (a.ConnectionDelay * SECOND)])
    else
      let rest := connectLoop dial ctx dialTime a none 0 1 (a.MaxRetries + 1).toNat
      (rest.1, rest.2.1, CEvent.delayWait (a.ConnectionDelay * SECOND) :: rest.2.2)
  else connectLoop dial ctx dialTime a none 0 0 (a.MaxRetries + 1).toNat

/-! ### The command loops (`ssh.go` lines 98-269)

Each loop is driven by an oracle giving, per cycle, the outcomes of the SSH
library calls and of the cancellation checks, plus `time.Now()` at the TTL
check.  A run yields the final agent, `some` result when the Go function
returned (with `none` meaning the fuel ran out first), and a trace. -/

/-- What a command-loop run returns: `ok` is a `nil` error, `err` a non-`nil`
one, and the `panic` constructors the two run-time panics the Go code could
reach (negative index; division by zero at `CommandRate = 0`). -/
inductive RunResult where
  | ok
  | err (e : String)
  | panicOOB
  | panicDiv
deriving DecidableEq, Repr

/-- Trace events of a command-loop run: a `NewSession` call, a command handed
to the SSH library (`sess.Output` / `stdin.Write`), and a cadence sleep with
its duration in nanoseconds. -/
inductive StdEv where
  | sessOpen (n : Nat)
  | cmd (n : Nat) (c : String)
  | sleepWait (n : Nat) (d : Int)
deriving DecidableEq, Repr

/-- Per-cycle oracle for `RunStandardProgram`. -/
structure StdOracle where
  ctxTop : Nat → Bool
  now : Nat → Int
  newSession : Nat → Except String Unit
  requestPty : Nat → Except String Unit
  runOutput : Nat → String → Except String String
  ctxSleep : Nat → Bool

/-- One cycle of `RunStandardProgram`'s loop at index `idx`: `none` in the
middle component means "fall through to `idx++` and the next cycle". -/
def stdCycle (a : Agent) (o : StdOracle) (idx : Nat) :
    Agent × Option RunResult × List StdEv :=
  if o.ctxTop idx then (a, some RunResult.ok, [])
  else if a.ConnectionStart + a.ConnectionTTL * SECOND < o.now idx then
    (a, some RunResult.ok, [])
  else
    match a.getCommand idx with
    | none => (a, some RunResult.panicOOB, [])
    | some command =>
      match o.newSession idx with
      | Except.error e => (a, some (RunResult.err e), [StdEv.sessOpen idx])
      | Except.ok _ =>
        match o.requestPty idx with
        | Except.error e => (a.Close, some (RunResult.err e), [StdEv.sessOpen idx])
        | Except.ok _ =>
          match o.runOutput idx command with
          | Except.error e =>
            (a.Close, some (RunResult.err e), [StdEv.sessOpen idx, StdEv.cmd idx command])
          | Except.ok _ =>
            match a.getSleepDuration with
            | none => (a, some RunResult.panicDiv, [StdEv.sessOpen idx, StdEv.cmd idx command])
            | some d =>
              if o.ctxSleep idx then
                (a, some RunResult.ok,
                  [StdEv.sessOpen idx, StdEv.cmd idx command, StdEv.sleepWait idx d])
              else
                (a, none,
                  [StdEv.sessOpen idx, StdEv.cmd idx command, StdEv.sleepWait idx d])

/-- The standard-mode loop, iterated with `fuel` remaining cycles. -/
def runStdLoop (o : StdOracle) : Agent → Nat → Nat → Agent × Option RunResult × List StdEv
  | a, 0, _ => (a, none, [])
  | a, fuel + 1, idx =>
    let c := stdCycle a o idx
    match c.2.1 with
    | some r => (c.1, some r, c.2.2)
    | none =>
      let rest := runStdLoop o c.1 fuel (idx + 1)
      (rest.1, rest.2.1, c.2.2 ++ rest.2.2)

/-- `RunStandardProgram` from `ssh.go`. -/
def Agent.RunStandardProgram (a : Agent) (o : StdOracle) (fuel : Nat) :
    Agent × Option RunResult × List StdEv :=
  match a.Connection with
  | none => (a, some (RunResult.err "Connection is nil"), [])
  | some _ => runStdLoop o a fuel 0

/-- Oracle for `RunTTYProgram`: outcomes of the one-off session setup, then
per-cycle outcomes of the shell interaction. -/
structure TTYOracle where
  newSession : Except String Unit
  requestPty : Except String Unit
  stdinPipe : Except String Unit
  stdoutPipe : Except String Unit
  stderrPipe : Except String Unit
  shell : Except String Unit
  ctxWarmup : Bool
  ctxTop : Nat → Bool
  now : Nat → Int
  write : Nat → String → Except String Unit
  ctxSleep : Nat → Bool

/-- One cycle of `RunTTYProgram`'s loop at index `idx`. -/
def ttyCycle (a : Agent) (o : TTYOracle) (idx : Nat) :
    Agent × Option RunResult × List StdEv :=
  if o.ctxTop idx then (a, some RunResult.ok, [])
  else if a.ConnectionStart + a.ConnectionTTL * SECOND < o.now idx then
    (a, some RunResult.ok, [])
  else
    match a.getCommand idx with
    | none => (a, some RunResult.panicOOB, [])
    | some command =>
      match o.write idx (command ++ "\r") with
      | Except.error e => (a, some (RunResult.err e), [StdEv.cmd idx command])
      | Except.ok _ =>
        match a.getSleepDuration with
        | none => (a, some RunResult.panicDiv, [StdEv.cmd idx command])
        | some d =>
          if o.ctxSleep idx then
            (a, some RunResult.ok, [StdEv.cmd idx command, StdEv.sleepWait idx d])
          else (a, none, [StdEv.cmd idx command, StdEv.sleepWait idx d])

/-- The interactive-mode loop, iterated with `fuel` remaining cycles. -/
def runTTYLoop (o : TTYOracle) : Agent → Nat → Nat → Agent × Option RunResult × List StdEv
  | a, 0, _ => (a, none, [])
  | a, fuel + 1, idx =>
    let c := ttyCycle a o idx
    match c.2.1 with
    | some r => (c.1, some r, c.2.2)
    | none =>
      let rest := runTTYLoop o c.1 fuel (idx + 1)
      (rest.1, rest.2.1, c.2.2 ++ rest.2.2)

/-- `RunTTYProgram` from `ssh.go`: one long-lived session (terminal request,
pipes, shell, 10 s warm-up racing the token), then the write/sleep loop. -/
def Agent.RunTTYProgram (a : Agent) (o : TTYOracle) (fuel : Nat) :
    Agent × Option RunResult × List StdEv :=
  match a.Connection with
  | none => (a, some (RunResult.err "Connection is nil"), [])
  | some _ =>
    match o.newSession with
    | Except.error e => (a, some (RunResult.err e), [StdEv.sessOpen 0])
    | Except.ok _ =>
      match o.requestPty with
      | Except.error e => (a.Close, some (RunResult.err e), [StdEv.sessOpen 0])
      | Except.ok _ =>
        match o.stdinPipe with
        | Except.error e => (a.Close, some (RunResult.err e), [StdEv.sessOpen 0])
        | Except.ok _ =>
          match o.stdoutPipe with
          | Except.error e => (a.Close, some (RunResult.err e), [StdEv.sessOpen 0])
          | Except.ok _ =>
            match o.stderrPipe with
            | Except.error e => (a.Close, some (RunResult.err e), [StdEv.sessOpen 0])
            | Except.ok _ =>
              match o.shell with
              | Except.error e => (a.Close, some (RunResult.err e), [StdEv.sessOpen 0])
              | Except.ok _ =>
                if o.ctxWarmup then (a, some (RunResult.err "context canceled"), [StdEv.sessOpen 0])
                else
                  let rest := runTTYLoop o a fuel 0
                  (rest.1, rest.2.1, StdEv.sessOpen 0 :: rest.2.2)

/-- `RunProgram` from `ssh.go`: dispatch on the `UseTTY` flag. -/
def Agent.RunProgram (a : Agent) (ostd : StdOracle) (otty : TTYOracle) (fuel : Nat) :
    Agent × Option RunResult × List StdEv :=
  if a.UseTTY then a.RunTTYProgram otty fuel else a.RunStandardProgram ostd fuel

/-! ## Concrete agents and oracles for witnesses and counterexamples -/

/-- An agent holding connection handle 0, all other fields default. -/
def agentConn : Agent := { Connection := some 0 }

/-- A standard-mode oracle where every call succeeds and the token never
fires. -/
def oStdOk : StdOracle :=
  { ctxTop := fun _ => false
    now := fun _ => 0
    newSession := fun _ => Except.ok ()
    requestPty := fun _ => Except.ok ()
    runOutput := fun _ _ => Except.ok ""
    ctxSleep := fun _ => false }

/-- An interactive-mode oracle where every call succeeds and the token never
fires. -/
def oTTYOk : TTYOracle :=
  { newSession := Except.ok ()
    requestPty := Except.ok ()
    stdinPipe := Except.ok ()
    stdoutPipe := Except.ok ()
    stderrPipe := Except.ok ()
    shell := Except.ok ()
    ctxWarmup := false
    ctxTop := fun _ => false
    now := fun _ => 0
    write := fun _ _ => Except.ok ()
    ctxSleep := fun _ => false }

/-- `oStdOk` with every `NewSession` call failing. -/
def oSessFail : StdOracle := { oStdOk with newSession := fun _ => Except.error "sessfail" }

/-- `oStdOk` with every `sess.Output` call failing. -/
def oOutFail : StdOracle := { oStdOk with runOutput := fun _ _ => Except.error "outfail" }

/-- `oStdOk` with the token signalled at every top-of-cycle check. -/
def oTopCancel : StdOracle := { oStdOk with ctxTop := fun _ => true }

/-- `oStdOk` with the token firing during every cadence wait. -/
def oSleepCancel : StdOracle := { oStdOk with ctxSleep := fun _ => true }


/-- Recognizer for dial-attempt events. -/
def isDialEv : CEvent → Bool
  | CEvent.dialAttempt _ => true
  | _ => false

/-- Recognizer for backoff-wait events. -/
def isBackoffEv : CEvent → Bool
  | CEvent.backoffWait _ _ => true
  | _ => false

/-- A dial oracle whose every attempt fails. -/
def dialAlwaysFail : Nat → Except String Nat := fun j => Except.error (toString j)

/-- A disconnected agent allowing two retries. -/
def agentRetry2 : Agent := { Connection := none, MaxRetries := 2 }

/-- Index of the cycle an event belongs to. -/
def StdEv.evIdx : StdEv → Nat
  | StdEv.sessOpen n => n
  | StdEv.cmd n _ => n
  | StdEv.sleepWait n _ => n

/-! ## Helper lemmas -/

/-- A value already in the signed 64-bit range is its own wrap. -/
lemma wrap64_eq_self {x : Int} (h1 : -9223372036854775808 ≤ x)
    (h2 : x < 9223372036854775808) : wrap64 x = x := by
  unfold wrap64; omega

/-- For attempts up to 33 the nanosecond count stays within `int64`, and the
backoff is exactly the capped exponential. -/
lemma getBackoffDuration_eq_min {a : Nat} (ha : a ≤ 33) :
    getBackoffDuration a = min ((2 : Int) ^ a * SECOND) (16 * SECOND) := by
  have hpow : (2 : Int) ^ a ≤ 2 ^ 33 := pow_le_pow_right₀ (by norm_num) ha
  have hpow33 : (2 : Int) ^ 33 = 8589934592 := by norm_num
  have hpos : (0 : Int) < 2 ^ a := pow_pos (by norm_num) a
  have h1 : wrap64 ((2 : Int) ^ a) = 2 ^ a := wrap64_eq_self (by omega) (by omega)
  have hmul : (2 : Int) ^ a * SECOND ≤ 8589934592 * SECOND := by
    have := mul_le_mul_of_nonneg_right (hpow.trans_eq hpow33) (by norm_num [SECOND] : (0 : Int) ≤ SECOND)
    simpa using this
  have hmulpos : (0 : Int) < 2 ^ a * SECOND :=
    mul_pos hpos (by norm_num [SECOND])
  have h2 : wrap64 ((2 : Int) ^ a * SECOND) = 2 ^ a * SECOND := by
    refine wrap64_eq_self (by omega) ?_
    have : (8589934592 : Int) * SECOND = 8589934592000000000 := by norm_num [SECOND]
    omega
  unfold getBackoffDuration
  rw [h1, h2]
  rcases le_or_lt ((2 : Int) ^ a * SECOND) (16 * SECOND) with h | h
  · rw [if_neg (by omega), min_eq_left h]
  · rw [if_pos h, min_eq_right h.le]

/-- The clamp bounds every backoff by 16 seconds, overflow or not. -/
lemma getBackoffDuration_le (n : Nat) : getBackoffDuration n ≤ 16 * SECOND := by
  have h : getBackoffDuration n =
      if wrap64 (wrap64 (2 ^ n) * SECOND) > 16 * SECOND then 16 * SECOND
      else wrap64 (wrap64 (2 ^ n) * SECOND) := rfl
  rw [h]
  split <;> omega

/-! ## C1: the backoff policy -/

/-- C1 (amended).  For attempts 0 ≤ a ≤ b ≤ 33 the backoff is exactly
`min(2^a seconds, 16 seconds)` and non-decreasing (attempt 0 gives 1 s,
attempts 4..33 give 16 s); for every attempt the backoff is at most 16
seconds.  Beyond attempt 33 the `int64` nanosecond product overflows, so the
closed formula and monotonicity stop there (see the counterexample). -/
theorem backoff_min_formula (a b n : Nat) (hab : a ≤ b) (hb : b ≤ 33) :
    getBackoffDuration a = min ((2 : Int) ^ a * SECOND) (16 * SECOND) ∧
    getBackoffDuration a ≤ getBackoffDuration b ∧
    getBackoffDuration n ≤ 16 * SECOND ∧
    getBackoffDuration 0 = SECOND ∧
    (4 ≤ a → getBackoffDuration a = 16 * SECOND) := by
  have ha : a ≤ 33 := hab.trans hb
  refine ⟨getBackoffDuration_eq_min ha, ?_, getBackoffDuration_le n, by decide, ?_⟩
  · rw [getBackoffDuration_eq_min ha, getBackoffDuration_eq_min hb]
    have hpow : (2 : Int) ^ a ≤ 2 ^ b := pow_le_pow_right₀ (by norm_num) hab
    exact min_le_min (mul_le_mul_of_nonneg_right hpow (by norm_num [SECOND])) le_rfl
  · intro h4
    rw [getBackoffDuration_eq_min ha, min_eq_right]
    have hpow : (2 : Int) ^ 4 ≤ 2 ^ a := pow_le_pow_right₀ (by norm_num) h4
    have : (16 : Int) ≤ 2 ^ a := by norm_num at hpow ⊢; omega
    exact mul_le_mul_of_nonneg_right this (by norm_num [SECOND])

/-- C1 witness: the amended statement at attempts 4, 5 and 40. -/
theorem backoff_min_formula_witness :
    getBackoffDuration 4 = min ((2 : Int) ^ 4 * SECOND) (16 * SECOND) ∧
    getBackoffDuration 4 ≤ getBackoffDuration 5 ∧
    getBackoffDuration 40 ≤ 16 * SECOND ∧
    getBackoffDuration 0 = SECOND ∧
    (4 ≤ 4 → getBackoffDuration 4 = 16 * SECOND) :=
  backoff_min_formula 4 5 40 (by norm_num) (by norm_num)

/-- C1 counterexample: at attempt 34 the product `2^34 * 10^9` overflows
`int64` and comes out negative, so `delay(34) ≠ min(2^34 s, 16 s)`, attempt
34 does not yield 16 s although `34 ≥ 4`, and the backoff is not
non-decreasing at 33 → 34. -/
theorem backoff_overflow_at_34 :
    getBackoffDuration 34 ≠ min ((2 : Int) ^ 34 * SECOND) (16 * SECOND) ∧
    getBackoffDuration 34 ≠ 16 * SECOND ∧
    getBackoffDuration 34 < getBackoffDuration 33 := by
  refine ⟨by decide, by decide, by decide⟩

/-! ## C3: the command source -/

/-- C3.  For a non-empty script, in-range indices return the script entry at
that position and indices at or past the end return the empty string (no
error); with no script every index returns the fixed default command. -/
theorem getCommand_spec (a : Agent) (i : Int) :
    (0 ≤ i → i < (a.CommandScript.length : Int) →
      a.getCommand i = a.CommandScript.get? i.toNat) ∧
    ((a.CommandScript.length : Int) ≤ i → 0 < a.CommandScript.length →
      a.getCommand i = some "") ∧
    (a.CommandScript = [] → a.getCommand i = some "echo \x27Hello, world!\x27") := by
  refine ⟨?_, ?_, ?_⟩
  · intro h0 hlt
    have hlen : 0 < a.CommandScript.length := by omega
    have hnat : i.toNat < a.CommandScript.length := by omega
    unfold Agent.getCommand
    rw [if_pos hlen, dif_neg (by omega), dif_pos h0, List.get?_eq_get hnat]
  · intro hge hlen
    unfold Agent.getCommand
    rw [if_pos hlen, dif_pos hge]
  · intro hnil
    unfold Agent.getCommand
    rw [if_neg (by simp [hnil])]

/-- C3 witness: a two-entry script at indices 1 and 2, and an empty script at
index 0. -/
theorem getCommand_spec_witness :
    ((0 : Int) ≤ 1 → (1 : Int) < (({ CommandScript := ["uname", "id"] } : Agent).CommandScript.length : Int) →
      ({ CommandScript := ["uname", "id"] } : Agent).getCommand 1 =
        ({ CommandScript := ["uname", "id"] } : Agent).CommandScript.get? (1 : Int).toNat) ∧
    ((({ CommandScript := ["uname", "id"] } : Agent).CommandScript.length : Int) ≤ 1 →
      0 < ({ CommandScript := ["uname", "id"] } : Agent).CommandScript.length →
      ({ CommandScript := ["uname", "id"] } : Agent).getCommand 1 = some "") ∧
    (({ CommandScript := ["uname", "id"] } : Agent).CommandScript = [] →
      ({ CommandScript := ["uname", "id"] } : Agent).getCommand 1 =
        some "echo \x27Hello, world!\x27") :=
  getCommand_spec { CommandScript := ["uname", "id"] } 1

/-- The connection reference is cleared by every `Close` call. -/
lemma close_connection_none (a : Agent) : (a.Close).Connection = none := by
  unfold Agent.Close
  rcases h : a.Connection with _ | c <;> simp [h]

/-! ## C9: Close is idempotent -/

/-- C9.  Closing an agent that holds no connection is a no-op; after any
`Close` the stored reference is `none`; and a second `Close` changes
nothing, so `Close ∘ Close = Close`. -/
theorem close_idempotent (a b : Agent) (hb : b.Connection = none) :
    b.Close = b ∧ (a.Close).Connection = none ∧ a.Close.Close = a.Close := by
  refine ⟨by simp [Agent.Close, hb], close_connection_none a, ?_⟩
  rcases h : a.Connection with _ | c <;> simp [Agent.Close, h]

/-- C9 witness: a connected agent and a never-connected one. -/
theorem close_idempotent_witness :
    ({ } : Agent).Close = { } ∧
    (({ Connection := some 3 } : Agent).Close).Connection = none ∧
    ({ Connection := some 3 } : Agent).Close.Close = ({ Connection := some 3 } : Agent).Close :=
  close_idempotent { Connection := some 3 } { } rfl

/-! ## Connect lemmas -/

/-- Summing a constant 1 over a list counts its elements. -/
lemma sum_map_one {α : Type} (l : List α) : (l.map fun _ => (1 : Nat)).sum = l.length := by
  induction l with
  | nil => simp
  | cons x xs ih => simp [ih, Nat.add_comm]

/-- Counting over a flatten of one-hit blocks gives the block count. -/
lemma countP_flatten_blocks (p : CEvent → Bool) (f : Nat → List CEvent)
    (hc : ∀ j, (f j).countP p = 1) (l : List Nat) :
    ((l.map f).flatten).countP p = l.length := by
  induction l with
  | nil => simp
  | cons x xs ih => simp [List.countP_append, hc, ih, Nat.add_comm]

/-- With every dial failing and the token never firing, the retry loop runs
all `n + 1` attempts, interleaving the backoff waits, and ends on the last
error. -/
lemma connectLoop_allFail (dial : Nat → Except String Nat) (dialTime : Nat → Int)
    (a : Agent) (err : Nat → String) (hfail : ∀ j, dial j = Except.error (err j)) :
    ∀ (n s obs : Nat) (lastErr : Option String),
      connectLoop dial (fun _ => false) dialTime a lastErr s obs (n + 1) =
        (a, some (ConnErr.dialErr (err (s + n))),
          (List.flatten ((List.range n).map fun j =>
            [CEvent.dialAttempt (s + j),
             CEvent.backoffWait (s + j) (getBackoffDuration (s + j))])) ++
            [CEvent.dialAttempt (s + n)]) := by
  intro n
  induction n with
  | zero =>
    intro s obs lastErr
    simp [connectLoop, hfail s]
  | succ n ih =>
    intro s obs lastErr
    have h1 : connectLoop dial (fun _ => false) dialTime a lastErr s obs (n + 1 + 1) =
        (let rest := connectLoop dial (fun _ => false) dialTime a (some (err s))
          (s + 1) (obs + 2) (n + 1)
         (rest.1, rest.2.1,
           CEvent.dialAttempt s ::
             CEvent.backoffWait s (getBackoffDuration s) :: rest.2.2)) := by
      simp [connectLoop, hfail s]
    rw [h1, ih (s + 1) (obs + 2)]
    simp [List.range_succ_eq_map, List.map_map, Function.comp_def, Nat.succ_eq_add_one,
      List.cons_append, Nat.add_assoc, Nat.add_comm, Nat.add_left_comm]

/-- No dial attempt starts at or after the observation point where the token
is seen signalled. -/
lemma connectLoop_cancel_bound (dial : Nat → Except String Nat) (dialTime : Nat → Int)
    (a : Agent) (k : Nat) :
    ∀ (rem attempt obs : Nat) (lastErr : Option String) (i : Nat),
      CEvent.dialAttempt i ∈
        (connectLoop dial (fun j => decide (k ≤ j)) dialTime a lastErr attempt obs rem).2.2 →
      attempt ≤ i ∧ obs + 2 * (i - attempt) < k := by
  intro rem
  induction rem with
  | zero =>
    intro attempt obs lastErr i h
    simp [connectLoop] at h
  | succ r ih =>
    intro attempt obs lastErr i h
    by_cases hk : k ≤ obs
    · simp [connectLoop, hk] at h
    · have hobs : obs < k := by omega
      cases hd : dial attempt with
      | ok c =>
        simp [connectLoop, hk, hd] at h
        subst h
        exact ⟨le_rfl, by omega⟩
      | error e =>
        by_cases hr : 0 < r
        · by_cases hk2 : k ≤ obs + 1
          · simp [connectLoop, hk, hd, hr, hk2] at h
            subst h
            exact ⟨le_rfl, by omega⟩
          · simp [connectLoop, hk, hd, hr, hk2] at h
            rcases h with h | h
            · subst h; exact ⟨le_rfl, by omega⟩
            · have := ih (attempt + 1) (obs + 2) (some e) i h
              exact ⟨by omega, by omega⟩
        · simp [connectLoop, hk, hd, hr] at h
          subst h
          exact ⟨le_rfl, by omega⟩

/-- The retry loop either leaves the agent unchanged, or some dial attempt
succeeded, the loop returns `nil`, and exactly the connection handle and
start time are updated. -/
lemma connectLoop_frame (dial : Nat → Except String Nat) (ctx : Nat → Bool)
    (dialTime : Nat → Int) (a : Agent) :
    ∀ (rem attempt obs : Nat) (lastErr : Option String),
      (connectLoop dial ctx dialTime a lastErr attempt obs rem).1 = a ∨
      ∃ i c, dial i = Except.ok c ∧
        (connectLoop dial ctx dialTime a lastErr attempt obs rem).2.1 = none ∧
        (connectLoop dial ctx dialTime a lastErr attempt obs rem).1 =
          { a with Connection := some c, ConnectionStart := dialTime i } := by
  intro rem
  induction rem with
  | zero => intro attempt obs lastErr; left; rfl
  | succ r ih =>
    intro attempt obs lastErr
    by_cases hc : ctx obs
    · left; simp [connectLoop, hc]
    · cases hd : dial attempt with
      | ok c =>
        right
        exact ⟨attempt, c, hd, by simp [connectLoop, hc, hd], by simp [connectLoop, hc, hd]⟩
      | error e =>
        by_cases hr : 0 < r
        · by_cases hc2 : ctx (obs + 1)
          · left; simp [connectLoop, hc, hd, hr, hc2]
          · have := ih (attempt + 1) (obs + 2) (some e)
            simpa [connectLoop, hc, hd, hr, hc2] using this
        · left; simp [connectLoop, hc, hd, hr]

/-! ## C2: the retry schedule of Connect -/

/-- C2.  With `MaxRetries = r`, every dial failing and the token never
signalled, `Connect` performs attempts `0..r` with the backoff wait
`delay(j)` between attempt `j` and attempt `j+1` — r+1 dial attempts and r
waits in total — and returns the last underlying dial error; and when the
token is signalled from observation point `k` on, every dial attempt that
begins does so strictly before `k`. -/
theorem connect_retry_contract (a : Agent) (dial : Nat → Except String Nat)
    (err : Nat → String) (dialTime : Nat → Int) (r k i : Nat)
    (hconn : a.Connection = none) (hr : a.MaxRetries = (r : Int))
    (hfail : ∀ j, dial j = Except.error (err j)) :
    (a.Connect dial (fun _ => false) dialTime).2.1 = some (ConnErr.dialErr (err r)) ∧
    (a.Connect dial (fun _ => false) dialTime).2.2 =
      (if 0 < a.ConnectionDelay then [CEvent.delayWait (a.ConnectionDelay * SECOND)] else []) ++
        ((List.flatten ((List.range r).map fun j =>
            [CEvent.dialAttempt j, CEvent.backoffWait j (getBackoffDuration j)])) ++
          [CEvent.dialAttempt r]) ∧
    (a.Connect dial (fun _ => false) dialTime).2.2.countP isDialEv = r + 1 ∧
    (a.Connect dial (fun _ => false) dialTime).2.2.countP isBackoffEv = r ∧
    (CEvent.dialAttempt i ∈ (a.Connect dial (fun j => decide (k ≤ j)) dialTime).2.2 →
      (if 0 < a.ConnectionDelay then 1 else 0) + 2 * i < k) := by
  have hsome : a.Connection.isSome = false := by simp [hconn]
  have htoNat : (a.MaxRetries + 1).toNat = r + 1 := by rw [hr]; omega
  have htr : (a.Connect dial (fun _ => false) dialTime).2.2 =
      (if 0 < a.ConnectionDelay then [CEvent.delayWait (a.ConnectionDelay * SECOND)] else []) ++
        ((List.flatten ((List.range r).map fun j =>
            [CEvent.dialAttempt j, CEvent.backoffWait j (getBackoffDuration j)])) ++
          [CEvent.dialAttempt r]) := by
    unfold Agent.Connect
    rw [htoNat]
    by_cases hd : 0 < a.ConnectionDelay
    · simp only [hsome, Bool.false_eq_true, if_false, hd, if_true]
      rw [connectLoop_allFail dial dialTime a err hfail r 0 1 none]
      simp
    · simp only [hsome, Bool.false_eq_true, if_false, hd, if_true]
      rw [connectLoop_allFail dial dialTime a err hfail r 0 0 none]
      simp
  have hres : (a.Connect dial (fun _ => false) dialTime).2.1 =
      some (ConnErr.dialErr (err r)) := by
    unfold Agent.Connect
    rw [htoNat]
    by_cases hd : 0 < a.ConnectionDelay
    · simp only [hsome, Bool.false_eq_true, if_false, hd, if_true]
      rw [connectLoop_allFail dial dialTime a err hfail r 0 1 none]
      simp
    · simp only [hsome, Bool.false_eq_true, if_false, hd, if_true]
      rw [connectLoop_allFail dial dialTime a err hfail r 0 0 none]
      simp
  refine ⟨hres, htr, ?_, ?_, ?_⟩
  · rw [htr, List.countP_append, List.countP_append,
      countP_flatten_blocks isDialEv _ (fun j => by simp [List.countP_cons, isDialEv]) (List.range r)]
    have hpre : (if 0 < a.ConnectionDelay then
        [CEvent.delayWait (a.ConnectionDelay * SECOND)] else []).countP isDialEv = 0 := by
      split <;> simp [isDialEv]
    rw [hpre]
    simp [isDialEv, List.countP_cons]
  · rw [htr, List.countP_append, List.countP_append,
      countP_flatten_blocks isBackoffEv _ (fun j => by simp [List.countP_cons, isBackoffEv]) (List.range r)]
    have hpre : (if 0 < a.ConnectionDelay then
        [CEvent.delayWait (a.ConnectionDelay * SECOND)] else []).countP isBackoffEv = 0 := by
      split <;> simp [isBackoffEv]
    rw [hpre]
    simp [isBackoffEv, List.countP_cons]
  · intro hmem
    unfold Agent.Connect at hmem
    rw [htoNat] at hmem
    by_cases hd : 0 < a.ConnectionDelay
    · simp only [hsome, Bool.false_eq_true, if_false, hd, if_true] at hmem
      by_cases hk0 : k = 0
      · subst hk0
        simp at hmem
      · have h0 : decide (k ≤ 0) = false := by
          simp only [decide_eq_false_iff_not]
          omega
        simp only [h0, Bool.false_eq_true, if_false, List.mem_cons] at hmem
        rcases hmem with h | h
        · cases h
        · have := connectLoop_cancel_bound dial dialTime a k (r + 1) 0 1 none i h
          rw [if_pos hd]
          omega
    · simp only [hsome, Bool.false_eq_true, if_false, hd, if_true] at hmem
      have := connectLoop_cancel_bound dial dialTime a k (r + 1) 0 0 none i hmem
      rw [if_neg hd]
      omega

/-- C2 witness: two retries, all dials failing — three attempts, two waits,
last error surfaced; and with the token signalled from observation point 3,
attempt 1 began before it. -/
theorem connect_retry_contract_witness :
    (agentRetry2.Connect dialAlwaysFail (fun _ => false) (fun _ => 0)).2.1 =
      some (ConnErr.dialErr (toString 2)) ∧
    (agentRetry2.Connect dialAlwaysFail (fun _ => false) (fun _ => 0)).2.2 =
      (if 0 < agentRetry2.ConnectionDelay then
        [CEvent.delayWait (agentRetry2.ConnectionDelay * SECOND)] else []) ++
        ((List.flatten ((List.range 2).map fun j =>
            [CEvent.dialAttempt j, CEvent.backoffWait j (getBackoffDuration j)])) ++
          [CEvent.dialAttempt 2]) ∧
    (agentRetry2.Connect dialAlwaysFail (fun _ => false) (fun _ => 0)).2.2.countP isDialEv = 2 + 1 ∧
    (agentRetry2.Connect dialAlwaysFail (fun _ => false) (fun _ => 0)).2.2.countP isBackoffEv = 2 ∧
    (CEvent.dialAttempt 1 ∈
        (agentRetry2.Connect dialAlwaysFail (fun j => decide (3 ≤ j)) (fun _ => 0)).2.2 →
      (if 0 < agentRetry2.ConnectionDelay then 1 else 0) + 2 * 1 < 3) :=
  connect_retry_contract agentRetry2 dialAlwaysFail (fun j => toString j) (fun _ => 0) 2 3 1
    rfl rfl (fun _ => rfl)

/-! ## C8: Connect's frame -/

/-- C8.  `Connect` leaves the whole agent — `Connection` and
`ConnectionStart` included — unchanged whenever it returns a non-`nil` error
(cancellation or the final dial error); the two fields change only when a
dial attempt succeeded, and then `ConnectionStart` is the time of that
success and the run returned `nil`. -/
theorem connect_mutates_only_on_success (a : Agent) (dial : Nat → Except String Nat)
    (ctx : Nat → Bool) (dialTime : Nat → Int) :
    (∀ e, (a.Connect dial ctx dialTime).2.1 = some e → (a.Connect dial ctx dialTime).1 = a) ∧
    ((a.Connect dial ctx dialTime).1 ≠ a →
      ∃ i c, dial i = Except.ok c ∧ (a.Connect dial ctx dialTime).2.1 = none ∧
        (a.Connect dial ctx dialTime).1 =
          { a with Connection := some c, ConnectionStart := dialTime i }) := by
  have key : (a.Connect dial ctx dialTime).1 = a ∨
      ∃ i c, dial i = Except.ok c ∧ (a.Connect dial ctx dialTime).2.1 = none ∧
        (a.Connect dial ctx dialTime).1 =
          { a with Connection := some c, ConnectionStart := dialTime i } := by
    unfold Agent.Connect
    by_cases h1 : a.Connection.isSome
    · left; simp [h1]
    · by_cases h2 : 0 < a.ConnectionDelay
      · by_cases h3 : ctx 0
        · left; simp [h1, h2, h3]
        · have := connectLoop_frame dial ctx dialTime a (a.MaxRetries + 1).toNat 0 1 none
          simpa [h1, h2, h3] using this
      · have := connectLoop_frame dial ctx dialTime a (a.MaxRetries + 1).toNat 0 0 none
        simpa [h1, h2] using this
  constructor
  · intro e he
    rcases key with h | ⟨j, c, _, hnone, _⟩
    · exact h
    · rw [he] at hnone; cases hnone
  · intro hne
    rcases key with h | hex
    · exact absurd h hne
    · exact hex

/-! ## Command-loop lemmas -/

/-- `getCommand` never panics at a loop index, which is non-negative. -/
lemma getCommand_nat_isSome (a : Agent) (m : Nat) :
    ∃ c, a.getCommand (m : Int) = some c := by
  unfold Agent.getCommand
  by_cases h1 : 0 < a.CommandScript.length
  · rw [if_pos h1]
    by_cases h2 : (a.CommandScript.length : Int) ≤ (m : Int)
    · rw [dif_pos h2]; exact ⟨"", rfl⟩
    · rw [dif_neg h2, dif_pos (Int.natCast_nonneg m)]
      exact ⟨_, rfl⟩
  · rw [if_neg h1]; exact ⟨_, rfl⟩

/-- A cycle that falls through to the next index leaves the agent unchanged
(the loop body mutates the agent only on its terminal branches). -/
lemma stdCycle_continue_eq (a : Agent) (o : StdOracle) (idx : Nat) (a' : Agent)
    (tr : List StdEv) (h : stdCycle a o idx = (a', none, tr)) : a' = a := by
  unfold stdCycle at h
  repeat' split at h
  all_goals simp_all

/-- Projection form of `stdCycle_continue_eq`. -/
lemma stdCycle_fst_of_continue (a : Agent) (o : StdOracle) (idx : Nat)
    (h : (stdCycle a o idx).2.1 = none) : (stdCycle a o idx).1 = a := by
  have heq : stdCycle a o idx =
      ((stdCycle a o idx).1, (stdCycle a o idx).2.1, (stdCycle a o idx).2.2) := rfl
  rw [h] at heq
  exact stdCycle_continue_eq a o idx _ _ heq

/-- Every event a cycle emits carries that cycle's index. -/
lemma stdCycle_ev_idx (a : Agent) (o : StdOracle) (m : Nat) (ev : StdEv)
    (h : ev ∈ (stdCycle a o m).2.2) : ev.evIdx = m := by
  unfold stdCycle at h
  repeat' split at h
  all_goals (try (exact absurd h (List.not_mem_nil ev)))
  all_goals (fin_cases h <;> rfl)

/-- A sleep event always carries the cadence-derived duration. -/
lemma stdCycle_sleep_duration (a : Agent) (o : StdOracle) (m n : Nat) (d : Int)
    (h : StdEv.sleepWait n d ∈ (stdCycle a o m).2.2) : a.getSleepDuration = some d := by
  unfold stdCycle at h
  repeat' split at h
  all_goals simp_all

/-- A cycle never reports the out-of-range panic: the loop index is a
natural number, and `getCommand` only panics on a negative index. -/
lemma stdCycle_no_panicOOB (a : Agent) (o : StdOracle) (idx : Nat) :
    (stdCycle a o idx).2.1 ≠ some RunResult.panicOOB := by
  obtain ⟨c, hc⟩ := getCommand_nat_isSome a idx
  unfold stdCycle
  repeat' split
  all_goals simp_all

/-- One unfolding step of the standard loop. -/
lemma runStdLoop_succ (o : StdOracle) (a : Agent) (fuel idx : Nat) :
    runStdLoop o a (fuel + 1) idx =
      match (stdCycle a o idx).2.1 with
      | some r => ((stdCycle a o idx).1, some r, (stdCycle a o idx).2.2)
      | none =>
        ((runStdLoop o (stdCycle a o idx).1 fuel (idx + 1)).1,
          (runStdLoop o (stdCycle a o idx).1 fuel (idx + 1)).2.1,
          (stdCycle a o idx).2.2 ++
            (runStdLoop o (stdCycle a o idx).1 fuel (idx + 1)).2.2) := rfl

/-- Every event of a standard-loop run comes from some cycle at or after the
start index, run against the same agent. -/
lemma runStdLoop_ev (o : StdOracle) :
    ∀ (fuel : Nat) (a : Agent) (idx : Nat) (ev : StdEv),
      ev ∈ (runStdLoop o a fuel idx).2.2 →
      ∃ m, idx ≤ m ∧ ev ∈ (stdCycle a o m).2.2 := by
  intro fuel
  induction fuel with
  | zero => intro a idx ev h; simp [runStdLoop] at h
  | succ fuel ih =>
    intro a idx ev h
    rw [runStdLoop_succ] at h
    rcases hc : (stdCycle a o idx).2.1 with _ | r
    · rw [hc] at h
      simp only [List.mem_append] at h
      rcases h with h | h
      · exact ⟨idx, le_rfl, h⟩
      · rw [stdCycle_fst_of_continue a o idx hc] at h
        obtain ⟨m, hm, hmem⟩ := ih a (idx + 1) ev h
        exact ⟨m, by omega, hmem⟩
    · rw [hc] at h
      exact ⟨idx, le_rfl, h⟩

/-- The standard loop never ends in the out-of-range panic. -/
lemma runStdLoop_no_panicOOB (o : StdOracle) :
    ∀ (fuel : Nat) (a : Agent) (idx : Nat),
      (runStdLoop o a fuel idx).2.1 ≠ some RunResult.panicOOB := by
  intro fuel
  induction fuel with
  | zero => intro a idx; simp [runStdLoop]
  | succ fuel ih =>
    intro a idx
    rw [runStdLoop_succ]
    rcases hc : (stdCycle a o idx).2.1 with _ | r
    · simpa using ih (stdCycle a o idx).1 (idx + 1)
    · have := stdCycle_no_panicOOB a o idx
      rw [hc] at this
      simpa using this

/-- Reaching cycle `idx + n` after `n` fall-through cycles: the run ends with
that cycle's outcome, and its trace is the earlier cycles' events followed by
the stopping cycle's. -/
lemma runStdLoop_stop (o : StdOracle) (a : Agent) :
    ∀ (n fuel idx : Nat) (a' : Agent) (r : RunResult) (tr : List StdEv),
      (∀ m, m < n → (stdCycle a o (idx + m)).2.1 = none) →
      stdCycle a o (idx + n) = (a', some r, tr) →
      n < fuel →
      runStdLoop o a fuel idx =
        (a', some r,
          (List.flatten ((List.range n).map fun m => (stdCycle a o (idx + m)).2.2)) ++ tr) := by
  intro n
  induction n with
  | zero =>
    intro fuel idx a' r tr hcont hstop hf
    rcases fuel with _ | f
    · omega
    rw [runStdLoop_succ]
    simp only [Nat.add_zero] at hstop
    rw [hstop]
    simp
  | succ n ih =>
    intro fuel idx a' r tr hcont hstop hf
    rcases fuel with _ | f
    · omega
    have h0 : (stdCycle a o idx).2.1 = none := by
      have := hcont 0 (by omega)
      simpa using this
    have hfst : (stdCycle a o idx).1 = a := stdCycle_fst_of_continue a o idx h0
    have ihs := ih f (idx + 1) a' r tr
      (fun m hm => by
        have := hcont (m + 1) (by omega)
        simpa [Nat.add_assoc, Nat.add_comm, Nat.add_left_comm] using this)
      (by
        have := hstop
        simpa [Nat.add_assoc, Nat.add_comm, Nat.add_left_comm] using this)
      (by omega)
    rw [runStdLoop_succ, h0]
    simp only [hfst, ihs]
    simp [List.range_succ_eq_map, List.map_map, Function.comp_def, Nat.succ_eq_add_one,
      List.append_assoc, Nat.add_assoc, Nat.add_comm, Nat.add_left_comm]

/-! ### The same infrastructure for the interactive loop -/

/-- A TTY cycle that falls through leaves the agent unchanged. -/
lemma ttyCycle_continue_eq (a : Agent) (o : TTYOracle) (idx : Nat) (a' : Agent)
    (tr : List StdEv) (h : ttyCycle a o idx = (a', none, tr)) : a' = a := by
  unfold ttyCycle at h
  repeat' split at h
  all_goals simp_all

/-- Projection form of `ttyCycle_continue_eq`. -/
lemma ttyCycle_fst_of_continue (a : Agent) (o : TTYOracle) (idx : Nat)
    (h : (ttyCycle a o idx).2.1 = none) : (ttyCycle a o idx).1 = a := by
  have heq : ttyCycle a o idx =
      ((ttyCycle a o idx).1, (ttyCycle a o idx).2.1, (ttyCycle a o idx).2.2) := rfl
  rw [h] at heq
  exact ttyCycle_continue_eq a o idx _ _ heq

/-- A TTY sleep event always carries the cadence-derived duration. -/
lemma ttyCycle_sleep_duration (a : Agent) (o : TTYOracle) (m n : Nat) (d : Int)
    (h : StdEv.sleepWait n d ∈ (ttyCycle a o m).2.2) : a.getSleepDuration = some d := by
  unfold ttyCycle at h
  repeat' split at h
  all_goals simp_all

/-- A TTY cycle never reports the out-of-range panic. -/
lemma ttyCycle_no_panicOOB (a : Agent) (o : TTYOracle) (idx : Nat) :
    (ttyCycle a o idx).2.1 ≠ some RunResult.panicOOB := by
  obtain ⟨c, hc⟩ := getCommand_nat_isSome a idx
  unfold ttyCycle
  repeat' split
  all_goals simp_all

/-- One unfolding step of the interactive loop. -/
lemma runTTYLoop_succ (o : TTYOracle) (a : Agent) (fuel idx : Nat) :
    runTTYLoop o a (fuel + 1) idx =
      match (ttyCycle a o idx).2.1 with
      | some r => ((ttyCycle a o idx).1, some r, (ttyCycle a o idx).2.2)
      | none =>
        ((runTTYLoop o (ttyCycle a o idx).1 fuel (idx + 1)).1,
          (runTTYLoop o (ttyCycle a o idx).1 fuel (idx + 1)).2.1,
          (ttyCycle a o idx).2.2 ++
            (runTTYLoop o (ttyCycle a o idx).1 fuel (idx + 1)).2.2) := rfl

/-- Every event of an interactive-loop run comes from some cycle, run
against the same agent. -/
lemma runTTYLoop_ev (o : TTYOracle) :
    ∀ (fuel : Nat) (a : Agent) (idx : Nat) (ev : StdEv),
      ev ∈ (runTTYLoop o a fuel idx).2.2 →
      ∃ m, idx ≤ m ∧ ev ∈ (ttyCycle a o m).2.2 := by
  intro fuel
  induction fuel with
  | zero => intro a idx ev h; simp [runTTYLoop] at h
  | succ fuel ih =>
    intro a idx ev h
    rw [runTTYLoop_succ] at h
    rcases hc : (ttyCycle a o idx).2.1 with _ | r
    · rw [hc] at h
      simp only [List.mem_append] at h
      rcases h with h | h
      · exact ⟨idx, le_rfl, h⟩
      · rw [ttyCycle_fst_of_continue a o idx hc] at h
        obtain ⟨m, hm, hmem⟩ := ih a (idx + 1) ev h
        exact ⟨m, by omega, hmem⟩
    · rw [hc] at h
      exact ⟨idx, le_rfl, h⟩

/-- The interactive loop never ends in the out-of-range panic. -/
lemma runTTYLoop_no_panicOOB (o : TTYOracle) :
    ∀ (fuel : Nat) (a : Agent) (idx : Nat),
      (runTTYLoop o a fuel idx).2.1 ≠ some RunResult.panicOOB := by
  intro fuel
  induction fuel with
  | zero => intro a idx; simp [runTTYLoop]
  | succ fuel ih =>
    intro a idx
    rw [runTTYLoop_succ]
    rcases hc : (ttyCycle a o idx).2.1 with _ | r
    · simpa using ih (ttyCycle a o idx).1 (idx + 1)
    · have := ttyCycle_no_panicOOB a o idx
      rw [hc] at this
      simpa using this

/-- `getCommand` is in bounds — `some` — at every non-negative index. -/
lemma getCommand_isSome_of_nonneg (a : Agent) (i : Int) (hi : 0 ≤ i) :
    (a.getCommand i).isSome = true := by
  unfold Agent.getCommand
  by_cases h1 : 0 < a.CommandScript.length
  · rw [if_pos h1]
    by_cases h2 : (a.CommandScript.length : Int) ≤ i
    · rw [dif_pos h2]; rfl
    · rw [dif_neg h2, dif_pos hi]; rfl
  · rw [if_neg h1]; rfl

/-- Commands of a trace are all from cycles strictly before `N`. -/
lemma cmds_lt_of (tr : List StdEv) (N : Nat)
    (h : ∀ m c, StdEv.cmd m c ∈ tr → m < N) :
    tr.all (fun ev => match ev with
      | StdEv.cmd m _ => decide (m < N) | _ => true) = true := by
  rw [List.all_eq_true]
  intro ev hev
  cases ev with
  | cmd m c => simpa using h m c hev
  | sessOpen k => rfl
  | sleepWait k d => rfl

/-- Commands of a trace are all from cycles at or before `N`. -/
lemma cmds_le_of (tr : List StdEv) (N : Nat)
    (h : ∀ m c, StdEv.cmd m c ∈ tr → m ≤ N) :
    tr.all (fun ev => match ev with
      | StdEv.cmd m _ => decide (m ≤ N) | _ => true) = true := by
  rw [List.all_eq_true]
  intro ev hev
  cases ev with
  | cmd m c => simpa using h m c hev
  | sessOpen k => rfl
  | sleepWait k d => rfl

/-- Events collected from the first `n` cycles of a run belong to cycles
before `n`. -/
lemma flatten_cycles_bound (o : StdOracle) (a : Agent) (n : Nat) (ev : StdEv)
    (h : ev ∈ (List.flatten ((List.range n).map fun m => (stdCycle a o (0 + m)).2.2))) :
    ev.evIdx < n := by
  rw [List.mem_flatten] at h
  obtain ⟨l, hl, hev⟩ := h
  rw [List.mem_map] at hl
  obtain ⟨m, hm, rfl⟩ := hl
  have := stdCycle_ev_idx a o (0 + m) ev hev
  rw [this]
  have := List.mem_range.mp hm
  omega

/-! ## C4: failure handling in the standard command loop -/

/-- C4 (amended).  Once the standard loop reaches a cycle: if command
execution fails there, the agent releases its connection — the stored
handle is cleared — and the failure is returned; if opening the session
fails, the failure is returned but the stored handle is left in place (the
Go code returns before calling `Close`); in both cases the loop stops and
no further command is issued. -/
theorem std_failure_terminal (a : Agent) (o o' : StdOracle) (cid : Nat)
    (n n' fuel fuel' : Nat) (e e' cmd : String)
    (hconn : a.Connection = some cid)
    (hf : n < fuel)
    (hcont : ∀ m, m < n → (stdCycle a o m).2.1 = none)
    (htop : o.ctxTop n = false)
    (httl : ¬(a.ConnectionStart + a.ConnectionTTL * SECOND < o.now n))
    (hsess : o.newSession n = Except.error e)
    (hf' : n' < fuel')
    (hcont' : ∀ m, m < n' → (stdCycle a o' m).2.1 = none)
    (htop' : o'.ctxTop n' = false)
    (httl' : ¬(a.ConnectionStart + a.ConnectionTTL * SECOND < o'.now n'))
    (hsess' : o'.newSession n' = Except.ok ())
    (hpty' : o'.requestPty n' = Except.ok ())
    (hcmd' : a.getCommand (n' : Int) = some cmd)
    (hout' : o'.runOutput n' cmd = Except.error e') :
    ((a.RunStandardProgram o fuel).2.1 = some (RunResult.err e) ∧
      (a.RunStandardProgram o fuel).1 = a ∧
      (a.RunStandardProgram o fuel).2.2.all (fun ev => match ev with
        | StdEv.cmd m _ => decide (m < n) | _ => true) = true) ∧
    ((a.RunStandardProgram o' fuel').2.1 = some (RunResult.err e') ∧
      (a.RunStandardProgram o' fuel').1.Connection = none ∧
      (a.RunStandardProgram o' fuel').2.2.all (fun ev => match ev with
        | StdEv.cmd m _ => decide (m ≤ n') | _ => true) = true) := by
  have hRP : a.RunStandardProgram o fuel = runStdLoop o a fuel 0 := by
    unfold Agent.RunStandardProgram; rw [hconn]
  have hRP' : a.RunStandardProgram o' fuel' = runStdLoop o' a fuel' 0 := by
    unfold Agent.RunStandardProgram; rw [hconn]
  constructor
  · obtain ⟨c0, hcmd0⟩ := getCommand_nat_isSome a n
    have hcyc : stdCycle a o n = (a, some (RunResult.err e), [StdEv.sessOpen n]) := by
      simp [stdCycle, htop, httl, hcmd0, hsess]
    have hrun := runStdLoop_stop o a n fuel 0 a (RunResult.err e) [StdEv.sessOpen n]
      (fun m hm => by simpa using hcont m hm) (by simpa using hcyc) hf
    rw [hRP, hrun]
    refine ⟨rfl, rfl, ?_⟩
    apply cmds_lt_of
    intro m c hmem
    rw [List.mem_append] at hmem
    rcases hmem with h | h
    · have := flatten_cycles_bound o a n (StdEv.cmd m c) h
      simpa [StdEv.evIdx] using this
    · simp at h
  · have hcyc : stdCycle a o' n' =
        (a.Close, some (RunResult.err e'), [StdEv.sessOpen n', StdEv.cmd n' cmd]) := by
      simp [stdCycle, htop', httl', hcmd', hsess', hpty', hout']
    have hrun := runStdLoop_stop o' a n' fuel' 0 a.Close (RunResult.err e')
      [StdEv.sessOpen n', StdEv.cmd n' cmd]
      (fun m hm => by simpa using hcont' m hm) (by simpa using hcyc) hf'
    rw [hRP', hrun]
    refine ⟨rfl, close_connection_none a, ?_⟩
    apply cmds_le_of
    intro m c hmem
    rw [List.mem_append] at hmem
    rcases hmem with h | h
    · have := flatten_cycles_bound o' a n' (StdEv.cmd m c) h
      simp [StdEv.evIdx] at this
      omega
    · simp at h
      omega

/-! ## C5: graceful stop on cancellation in the standard loop -/

/-- C5.  When the token is seen signalled at the top of a cycle, or during
the cadence wait after a successful command, the standard loop returns
success — not an error — with the agent unchanged, and no command from a
later cycle is ever issued. -/
theorem std_cancel_graceful (a : Agent) (o o' : StdOracle) (cid : Nat)
    (n n' fuel fuel' : Nat) (cmd out : String)
    (hconn : a.Connection = some cid)
    (hf : n < fuel)
    (hcont : ∀ m, m < n → (stdCycle a o m).2.1 = none)
    (htop : o.ctxTop n = true)
    (hf' : n' < fuel')
    (hcont' : ∀ m, m < n' → (stdCycle a o' m).2.1 = none)
    (htop' : o'.ctxTop n' = false)
    (httl' : ¬(a.ConnectionStart + a.ConnectionTTL * SECOND < o'.now n'))
    (hsess' : o'.newSession n' = Except.ok ())
    (hpty' : o'.requestPty n' = Except.ok ())
    (hcmd' : a.getCommand (n' : Int) = some cmd)
    (hout' : o'.runOutput n' cmd = Except.ok out)
    (hrate : a.CommandRate ≠ 0)
    (hsleep' : o'.ctxSleep n' = true) :
    ((a.RunStandardProgram o fuel).2.1 = some RunResult.ok ∧
      (a.RunStandardProgram o fuel).1 = a ∧
      (a.RunStandardProgram o fuel).2.2.all (fun ev => match ev with
        | StdEv.cmd m _ => decide (m < n) | _ => true) = true) ∧
    ((a.RunStandardProgram o' fuel').2.1 = some RunResult.ok ∧
      (a.RunStandardProgram o' fuel').1 = a ∧
      (a.RunStandardProgram o' fuel').2.2.all (fun ev => match ev with
        | StdEv.cmd m _ => decide (m ≤ n') | _ => true) = true) := by
  have hRP : a.RunStandardProgram o fuel = runStdLoop o a fuel 0 := by
    unfold Agent.RunStandardProgram; rw [hconn]
  have hRP' : a.RunStandardProgram o' fuel' = runStdLoop o' a fuel' 0 := by
    unfold Agent.RunStandardProgram; rw [hconn]
  constructor
  · have hcyc : stdCycle a o n = (a, some RunResult.ok, []) := by
      simp [stdCycle, htop]
    have hrun := runStdLoop_stop o a n fuel 0 a RunResult.ok []
      (fun m hm => by simpa using hcont m hm) (by simpa using hcyc) hf
    rw [hRP, hrun]
    refine ⟨rfl, rfl, ?_⟩
    apply cmds_lt_of
    intro m c hmem
    rw [List.mem_append] at hmem
    rcases hmem with h | h
    · have := flatten_cycles_bound o a n (StdEv.cmd m c) h
      simpa [StdEv.evIdx] using this
    · simp at h
  · have hcyc : stdCycle a o' n' =
        (a, some RunResult.ok,
          [StdEv.sessOpen n', StdEv.cmd n' cmd,
           StdEv.sleepWait n' (60 / a.CommandRate * SECOND)]) := by
      simp [stdCycle, htop', httl', hcmd', hsess', hpty', hout',
        Agent.getSleepDuration, hrate, hsleep']
    have hrun := runStdLoop_stop o' a n' fuel' 0 a RunResult.ok
      [StdEv.sessOpen n', StdEv.cmd n' cmd,
       StdEv.sleepWait n' (60 / a.CommandRate * SECOND)]
      (fun m hm => by simpa using hcont' m hm) (by simpa using hcyc) hf'
    rw [hRP', hrun]
    refine ⟨rfl, rfl, ?_⟩
    apply cmds_le_of
    intro m c hmem
    rw [List.mem_append] at hmem
    rcases hmem with h | h
    · have := flatten_cycles_bound o' a n' (StdEv.cmd m c) h
      simp [StdEv.evIdx] at this
      omega
    · simp at h
      omega

/-- Every event of an interactive run is the setup's session-open or comes
from a loop cycle. -/
lemma runTTYProgram_ev (a : Agent) (o : TTYOracle) (fuel : Nat) (ev : StdEv)
    (h : ev ∈ (a.RunTTYProgram o fuel).2.2) :
    ev = StdEv.sessOpen 0 ∨ ∃ m, ev ∈ (ttyCycle a o m).2.2 := by
  unfold Agent.RunTTYProgram at h
  repeat' split at h
  all_goals simp_all
  rcases h with rfl | h
  · exact Or.inl rfl
  · obtain ⟨m, _, hm⟩ := runTTYLoop_ev o fuel a 0 ev h
    exact Or.inr ⟨m, hm⟩

/-- The interactive program never ends in the out-of-range panic. -/
lemma runTTYProgram_no_panicOOB (a : Agent) (o : TTYOracle) (fuel : Nat) :
    (a.RunTTYProgram o fuel).2.1 ≠ some RunResult.panicOOB := by
  unfold Agent.RunTTYProgram
  repeat' split
  all_goals simp_all
  have := runTTYLoop_no_panicOOB o fuel a 0
  simp_all

/-! ## C6: the cadence wait -/

/-- C6.  With a positive cadence the computed sleep is `60 / CommandRate`
(truncating integer division) seconds, and every cadence wait either loop
performs — standard or interactive — has exactly that duration. -/
theorem sleep_cadence (a : Agent) (o : StdOracle) (o' : TTYOracle)
    (fuel fuel' n n' : Nat) (d d' : Int) (hrate : 0 < a.CommandRate) :
    a.getSleepDuration = some (60 / a.CommandRate * SECOND) ∧
    (StdEv.sleepWait n d ∈ (a.RunStandardProgram o fuel).2.2 →
      d = 60 / a.CommandRate * SECOND) ∧
    (StdEv.sleepWait n' d' ∈ (a.RunTTYProgram o' fuel').2.2 →
      d' = 60 / a.CommandRate * SECOND) := by
  have hsleep : a.getSleepDuration = some (60 / a.CommandRate * SECOND) := by
    unfold Agent.getSleepDuration
    rw [if_neg (by omega)]
  refine ⟨hsleep, ?_, ?_⟩
  · intro hmem
    unfold Agent.RunStandardProgram at hmem
    rcases hC : a.Connection with _ | c <;> rw [hC] at hmem
    · simp at hmem
    · obtain ⟨m, _, hm⟩ := runStdLoop_ev o fuel a 0 _ hmem
      have := stdCycle_sleep_duration a o m n d hm
      rw [hsleep] at this
      exact (Option.some_inj.mp this).symm
  · intro hmem
    rcases runTTYProgram_ev a o' fuel' _ hmem with h | ⟨m, hm⟩
    · cases h
    · have := ttyCycle_sleep_duration a o' m n' d' hm
      rw [hsleep] at this
      exact (Option.some_inj.mp this).symm

/-! ## C7: the command loop requires a connection -/

/-- C7.  With no stored connection handle, `RunProgram` — in either mode —
returns the not-connected error at once: the agent is unchanged and the
trace is empty, so no session was opened and no command issued. -/
theorem run_requires_connection (a : Agent) (ostd : StdOracle) (otty : TTYOracle)
    (fuel : Nat) (h : a.Connection = none) :
    a.RunProgram ostd otty fuel = (a, some (RunResult.err "Connection is nil"), []) := by
  unfold Agent.RunProgram Agent.RunStandardProgram Agent.RunTTYProgram
  rw [h]
  rcases hU : a.UseTTY <;> simp

/-! ## C10: the script index stays in bounds -/

/-- C10.  `getCommand` is in bounds at every non-negative index (the code
guards only `idx ≥ len`), and since both command loops start at index 0 and
only increment it, no run of either loop can reach the out-of-range panic. -/
theorem index_safety (a : Agent) (i : Int) (ostd : StdOracle) (otty : TTYOracle)
    (fuel fuel' : Nat) (hi : 0 ≤ i) :
    (a.getCommand i).isSome = true ∧
    (a.RunStandardProgram ostd fuel).2.1 ≠ some RunResult.panicOOB ∧
    (a.RunTTYProgram otty fuel').2.1 ≠ some RunResult.panicOOB := by
  refine ⟨getCommand_isSome_of_nonneg a i hi, ?_, runTTYProgram_no_panicOOB a otty fuel'⟩
  unfold Agent.RunStandardProgram
  rcases hC : a.Connection with _ | c
  · simp
  · exact runStdLoop_no_panicOOB ostd fuel a 0

/-- C4 counterexample: when `NewSession` fails, `RunStandardProgram` returns
the failure but the stored connection handle is NOT cleared — the code
returns before calling `Close`, so the claim's "releases its connection"
fails for session-open failures. -/
theorem std_session_open_keeps_connection :
    (agentConn.RunStandardProgram oSessFail 1).2.1 = some (RunResult.err "sessfail") ∧
    (agentConn.RunStandardProgram oSessFail 1).1.Connection = some 0 ∧
    (agentConn.RunStandardProgram oSessFail 1).1.Connection ≠ none := by
  refine ⟨by decide, by decide, by decide⟩

/-- C4 witness: the amended statement at cycle 0, once with `NewSession`
failing and once with `sess.Output` failing. -/
theorem std_failure_terminal_witness :
    ((agentConn.RunStandardProgram oSessFail 1).2.1 = some (RunResult.err "sessfail") ∧
      (agentConn.RunStandardProgram oSessFail 1).1 = agentConn ∧
      (agentConn.RunStandardProgram oSessFail 1).2.2.all (fun ev => match ev with
        | StdEv.cmd m _ => decide (m < 0) | _ => true) = true) ∧
    ((agentConn.RunStandardProgram oOutFail 1).2.1 = some (RunResult.err "outfail") ∧
      (agentConn.RunStandardProgram oOutFail 1).1.Connection = none ∧
      (agentConn.RunStandardProgram oOutFail 1).2.2.all (fun ev => match ev with
        | StdEv.cmd m _ => decide (m ≤ 0) | _ => true) = true) :=
  std_failure_terminal agentConn oSessFail oOutFail 0 0 0 1 1
    "sessfail" "outfail" "echo \x27Hello, world!\x27"
    rfl (by omega) (fun m hm => absurd hm (Nat.not_lt_zero m)) rfl (by decide) rfl
    (by omega) (fun m hm => absurd hm (Nat.not_lt_zero m)) rfl (by decide) rfl rfl
    (by decide) rfl

/-- C5 witness: cancellation at the top of cycle 0, and cancellation during
the cadence wait of cycle 0 after a successful command. -/
theorem std_cancel_graceful_witness :
    ((agentConn.RunStandardProgram oTopCancel 1).2.1 = some RunResult.ok ∧
      (agentConn.RunStandardProgram oTopCancel 1).1 = agentConn ∧
      (agentConn.RunStandardProgram oTopCancel 1).2.2.all (fun ev => match ev with
        | StdEv.cmd m _ => decide (m < 0) | _ => true) = true) ∧
    ((agentConn.RunStandardProgram oSleepCancel 1).2.1 = some RunResult.ok ∧
      (agentConn.RunStandardProgram oSleepCancel 1).1 = agentConn ∧
      (agentConn.RunStandardProgram oSleepCancel 1).2.2.all (fun ev => match ev with
        | StdEv.cmd m _ => decide (m ≤ 0) | _ => true) = true) :=
  std_cancel_graceful agentConn oTopCancel oSleepCancel 0 0 0 1 1
    "echo \x27Hello, world!\x27" ""
    rfl (by omega) (fun m hm => absurd hm (Nat.not_lt_zero m)) rfl
    (by omega) (fun m hm => absurd hm (Nat.not_lt_zero m)) rfl (by decide) rfl rfl
    (by decide) rfl (by decide) rfl

/-- C6 witness: the default cadence 6 gives a 10-second wait, observed in
both loops' traces. -/
theorem sleep_cadence_witness :
    agentConn.getSleepDuration = some (60 / agentConn.CommandRate * SECOND) ∧
    (StdEv.sleepWait 0 10000000000 ∈ (agentConn.RunStandardProgram oStdOk 1).2.2 →
      (10000000000 : Int) = 60 / agentConn.CommandRate * SECOND) ∧
    (StdEv.sleepWait 0 10000000000 ∈ (agentConn.RunTTYProgram oTTYOk 1).2.2 →
      (10000000000 : Int) = 60 / agentConn.CommandRate * SECOND) :=
  sleep_cadence agentConn oStdOk oTTYOk 1 1 0 0 10000000000 10000000000 (by decide)

/-- C7 witness: a default (disconnected) agent fails immediately in both
modes. -/
theorem run_requires_connection_witness :
    ({ } : Agent).RunProgram oStdOk oTTYOk 3 =
      ({ }, some (RunResult.err "Connection is nil"), []) :=
  run_requires_connection { } oStdOk oTTYOk 3 rfl

/-- C10 witness: index 7 on the default script is in bounds (`some`), and
concrete runs of both loops avoid the out-of-range panic. -/
theorem index_safety_witness :
    ((agentConn.getCommand 7).isSome = true) ∧
    (agentConn.RunStandardProgram oStdOk 2).2.1 ≠ some RunResult.panicOOB ∧
    (agentConn.RunTTYProgram oTTYOk 2).2.1 ≠ some RunResult.panicOOB :=
  index_safety agentConn 7 oStdOk oTTYOk 2 2 (by decide)

end SshMob
